import Mathlib

/-!
Shallow embedding of the noise-rust-elligator repository core, written from
the source files `src/src/handshakestate.rs`, `src/src/wrappers/crypto_wrapper.rs`
and `src/noise-rust-crypto/src/lib.rs`.

Byte strings are modelled as `List Nat` (each entry a byte value); machine
integers as `Nat` with explicit `% 256` where the source truncates to a byte.
Rust panics (assert failures, `unwrap` on `None`, out-of-bounds slicing) are
modelled as `none` / a dedicated `panic` constructor; `Result`s as `Option` or
an explicit error constructor carrying the (possibly mutated) state.
-/

set_option autoImplicit false

abbrev Bytes := List Nat

/-- Capability contract of a DH group, as consumed by the legacy
`HandshakeState` (`crypto_types::DH`): a public-key length, public-key
derivation from a private key, and an infallible `dh` (the legacy trait's
`dh(&self, pubkey, out)` writes the shared secret and cannot fail). -/
structure DHT where
  pubLen : Nat
  name : Bytes
  pubkey : Bytes → Bytes
  dh : Bytes → Bytes → Bytes

/-- Capability contract of an AEAD cipher (`crypto_types::Cipher`):
`encrypt key nonce ad plaintext` returns `ciphertext ++ tag`, and
`decrypt key nonce ad ciphertext` returns the plaintext or fails. -/
structure CipherT where
  name : Bytes
  encrypt : Bytes → Nat → Bytes → Bytes → Bytes
  decrypt : Bytes → Nat → Bytes → Bytes → Option Bytes

/-- Capability contract of a hash (`crypto_types::Hash`): digest length,
block length and the digest function. -/
structure HashT where
  name : Bytes
  hashLen : Nat
  blockLen : Nat
  hash : Bytes → Bytes

/-! ## Nonce / IV encoding (lib.rs and crypto_wrapper.rs)

The cipher implementations build the IV passed to the underlying AEAD core
from the 64-bit Noise nonce counter. -/

/-- Little-endian 8-byte encoding of a 64-bit counter (`u64::to_le_bytes` /
`LittleEndian::write_u64`). -/
def u64ToLe (n : Nat) : Bytes :=
  (List.range 8).map fun i => (n >>> (8 * i)) % 256

/-- Big-endian 8-byte encoding of a 64-bit counter (`u64::to_be_bytes` /
`BigEndian::write_u64`). -/
def u64ToBe (n : Nat) : Bytes :=
  (List.range 8).map fun i => (n >>> (8 * (7 - i))) % 256

/-- Overwriting `src.length` bytes of `dst` starting at offset `off`
(`dst[off..].copy_from_slice(&src)` with `off + src.length = dst.length`). -/
def copyFromSlice (dst : Bytes) (off : Nat) (src : Bytes) : Bytes :=
  dst.take off ++ src ++ dst.drop (off + src.length)

/-- IV built by `ChaCha20Poly1305::encrypt`/`decrypt` in
`noise-rust-crypto/src/lib.rs` (lines 80-81): a 12-byte buffer of zeros whose
bytes 4..12 are the little-endian counter. -/
def chachaFullNonce (n : Nat) : Bytes :=
  copyFromSlice (List.replicate 12 0) 4 (u64ToLe n)

/-- IV built by `Aes256Gcm::encrypt`/`decrypt` in
`noise-rust-crypto/src/lib.rs` (lines 178-179): a 12-byte buffer of zeros whose
bytes 4..12 are the big-endian counter. -/
def aesGcmFullNonce (n : Nat) : Bytes :=
  copyFromSlice (List.replicate 12 0) 4 (u64ToBe n)

/-- IV built by the legacy `Aes256Gcm` in
`src/wrappers/crypto_wrapper.rs` (lines 115-116): a 12-byte buffer of zeros
whose bytes 4..12 are the big-endian counter. -/
def legacyAesNonceBytes (n : Nat) : Bytes :=
  copyFromSlice (List.replicate 12 0) 4 (u64ToBe n)

/-- Nonce built by the legacy `ChaCha20Poly1305` in
`src/wrappers/crypto_wrapper.rs` (lines 157-158): an 8-byte buffer holding the
little-endian counter, passed directly to `ChaCha20::new`. -/
def legacyChaChaNonceBytes (n : Nat) : Bytes :=
  u64ToLe n

/-- Modelled from the spec: the 96-bit IV described in the data model,
"prepending 32 zero bits and appending the counter in little-endian for
ChaCha20-Poly1305 and big-endian for AES-GCM". -/
def specIv96 (littleEndian : Bool) (n : Nat) : Bytes :=
  List.replicate 4 0 ++ (if littleEndian then u64ToLe n else u64ToBe n)

/-- The new-tree `ChaCha20Poly1305::encrypt` hands the AEAD core the key, the
`chachaFullNonce` IV, the associated data and the plaintext; the core itself
(crate `chacha20poly1305`) is an external collaborator, taken as a parameter. -/
def chachaEncryptNew (aead : Bytes → Bytes → Bytes → Bytes → Bytes)
    (k : Bytes) (nonce : Nat) (ad pt : Bytes) : Bytes :=
  aead k (chachaFullNonce nonce) ad pt

/-- The new-tree `Aes256Gcm::encrypt` hands the AEAD core the key, the
`aesGcmFullNonce` IV, the associated data and the plaintext. -/
def aesEncryptNew (aead : Bytes → Bytes → Bytes → Bytes → Bytes)
    (k : Bytes) (nonce : Nat) (ad pt : Bytes) : Bytes :=
  aead k (aesGcmFullNonce nonce) ad pt

/-- The legacy `Aes256Gcm::encrypt` hands the rust-crypto `AesGcm` core the
key, the `legacyAesNonceBytes` IV, the associated data and the plaintext. -/
def aesEncryptLegacy (aead : Bytes → Bytes → Bytes → Bytes → Bytes)
    (k : Bytes) (nonce : Nat) (ad pt : Bytes) : Bytes :=
  aead k (legacyAesNonceBytes nonce) ad pt

/-- The legacy `ChaCha20Poly1305::encrypt` hands the rust-crypto `ChaCha20`
stream core the key and the 8-byte `legacyChaChaNonceBytes` nonce; the
ChaCha20/Poly1305 cores are external collaborators, taken as a parameter. -/
def chachaEncryptLegacy (core : Bytes → Bytes → Bytes → Bytes → Bytes)
    (k : Bytes) (nonce : Nat) (ad pt : Bytes) : Bytes :=
  core k (legacyChaChaNonceBytes nonce) ad pt

/-! ## X25519 DH (lib.rs lines 54-63 and crypto_wrapper.rs lines 85-89)

The montgomery scalar multiplication and the elligator representative decoder
live in external crates (`curve25519-dalek`, rust-crypto); they are taken as
parameters. What the repository code adds is only the (non-)error plumbing. -/

/-- New-tree `X25519::dh` (lib.rs lines 54-63): optionally decodes an
elligator representative, multiplies, and unconditionally wraps the result in
`Ok`. -/
def X25519.dhNew (mul : Bytes → Bytes → Bytes) (decodeRep : Bytes → Bytes)
    (k pk : Bytes) (elligatorEncoded : Bool) : Except Unit Bytes :=
  Except.ok (mul k (if elligatorEncoded then decodeRep pk else pk))

/-- Legacy `X25519::dh` (crypto_wrapper.rs lines 85-89): calls `curve25519`
and copies the result out; the signature offers no error path at all. -/
def X25519.dhLegacy (curve : Bytes → Bytes → Bytes) (k pk : Bytes) : Bytes :=
  curve k pk

/-- Modelled from the spec: a stand-in for the external montgomery scalar
multiplication (out of core scope per the spec's collaborator list); used only
to instantiate closed statements, never to decide anything about the
repository code. -/
def extMulModel : Bytes → Bytes → Bytes :=
  fun _ pk => pk.map (fun _ => 0)

/-- Modelled from the spec: a stand-in for the external elligator
representative decoder, likewise out of core scope. -/
def extDecodeModel : Bytes → Bytes :=
  fun pk => pk

/-! ## Length handling of the decryption interfaces (claim C10) -/

/-- Legacy `Aes256Gcm::decrypt` (crypto_wrapper.rs lines 122-131): computes
`text_len = ciphertext.len() - 16` with unsigned arithmetic and slices with
it; for ciphertexts shorter than 16 bytes the subtraction underflows and the
call panics (`none`) instead of returning the `bool` authentication verdict.
The rust-crypto `AesGcm` core is a parameter deciding the verdict. -/
def aesLegacyDecrypt (core : Bytes → Bytes → Bytes → Bytes → Bytes → Bool)
    (key : Bytes) (nonce : Nat) (ad ct : Bytes) : Option Bool :=
  if 16 ≤ ct.length then
    some (core key (legacyAesNonceBytes nonce) ad
      (ct.take (ct.length - 16)) (ct.drop (ct.length - 16)))
  else
    none

/-- New-tree `ChaCha20Poly1305::decrypt_in_place` (lib.rs lines 140-161):
asserts `ciphertext_len >= 16` before splitting off the tag, so a short
ciphertext panics at the assertion (`none`). The AEAD core is a parameter. -/
def chachaDecryptInPlaceNew (core : Bytes → Bytes → Bytes → Bytes → Bytes → Option Bytes)
    (key : Bytes) (nonce : Nat) (ad ct : Bytes) : Option Bytes :=
  if 16 ≤ ct.length then
    core key (chachaFullNonce nonce) ad
      (ct.take (ct.length - 16)) (ct.drop (ct.length - 16))
  else
    none

/-! ## CipherState and SymmetricState

These two components are code of this repository that is not under `src/`
(only `handshakestate.rs`, which calls them, is); they are modelled from the
spec (sections 4.1 and 4.2). -/

/-- Modelled from the spec: `CipherState` holds an optional 256-bit key and a
64-bit counter nonce. -/
structure CipherState where
  k : Option Bytes
  n : Nat
  deriving DecidableEq, Repr

/-- Modelled from the spec: `EncryptWithAd(ad, plaintext)` — if keyed, return
`Encrypt(k, n, ad, plaintext)` and increment `n`; else return the plaintext
verbatim. -/
def CipherState.encryptWithAd (C : CipherT) (ad pt : Bytes) (cs : CipherState) :
    Bytes × CipherState :=
  match cs.k with
  | none => (pt, cs)
  | some key => (C.encrypt key cs.n ad pt, { cs with n := cs.n + 1 })

/-- Modelled from the spec: `DecryptWithAd(ad, ciphertext)` — if keyed, return
`Decrypt(k, n, ad, ciphertext)`, incrementing `n` only on success; else return
the ciphertext verbatim. -/
def CipherState.decryptWithAd (C : CipherT) (ad ct : Bytes) (cs : CipherState) :
    Option (Bytes × CipherState) :=
  match cs.k with
  | none => some (ct, cs)
  | some key => (C.decrypt key cs.n ad ct).map fun pt => (pt, { cs with n := cs.n + 1 })

/-- Modelled from the spec: HMAC, "the standard construction parameterized by
the chosen Hash and its BLOCKLEN". -/
def hmac (H : HashT) (key data : Bytes) : Bytes :=
  let k0 := if H.blockLen < key.length then H.hash key else key
  let kp := k0 ++ List.replicate (H.blockLen - k0.length) 0
  H.hash ((kp.map fun b => b ^^^ 92) ++ H.hash ((kp.map fun b => b ^^^ 54) ++ data))

/-- Modelled from the spec: the two-output HKDF —
`temp_key := HMAC(ck, ikm); out_1 := HMAC(temp_key, 0x01);
out_2 := HMAC(temp_key, out_1 || 0x02)`. -/
def hkdf2 (H : HashT) (ck ikm : Bytes) : Bytes × Bytes :=
  let tempKey := hmac H ck ikm
  let out1 := hmac H tempKey [1]
  (out1, hmac H tempKey (out1 ++ [2]))

/-- Modelled from the spec: truncate an HKDF output block to the 32-byte
cipher key size when `HASHLEN = 64`. -/
def truncKey (H : HashT) (b : Bytes) : Bytes :=
  if H.hashLen = 64 then b.take 32 else b

/-- Modelled from the spec: `SymmetricState` — chaining key `ck`, transcript
hash `h`, and an embedded `CipherState`. -/
structure SymmetricState where
  cs : CipherState
  ck : Bytes
  h : Bytes
  deriving DecidableEq, Repr

/-- Modelled from the spec: `SymmetricState` initialization from the protocol
name — pad the name with zeros to `HASHLEN` if it fits, hash it otherwise;
`ck := h`; cipher unkeyed with `n = 0`. -/
def SymmetricState.new (H : HashT) (name : Bytes) : SymmetricState :=
  let h0 := if name.length ≤ H.hashLen
    then name ++ List.replicate (H.hashLen - name.length) 0
    else H.hash name
  { cs := { k := none, n := 0 }, ck := h0, h := h0 }

/-- Modelled from the spec: `MixHash(data)`: `h := Hash(h || data)`. -/
def SymmetricState.mixHash (H : HashT) (data : Bytes) (ss : SymmetricState) :
    SymmetricState :=
  { ss with h := H.hash (ss.h ++ data) }

/-- Modelled from the spec: `MixKey(ikm)`: `(ck, tempk) := HKDF(ck, ikm, 2)`;
truncate `tempk` if needed; `InitializeKey(tempk)` (which resets `n` to 0). -/
def SymmetricState.mixKey (H : HashT) (ikm : Bytes) (ss : SymmetricState) :
    SymmetricState :=
  let p := hkdf2 H ss.ck ikm
  { ss with ck := p.1, cs := { k := some (truncKey H p.2), n := 0 } }

/-- Modelled from the spec: `HasKey()`. -/
def SymmetricState.hasKey (ss : SymmetricState) : Bool :=
  ss.cs.k.isSome

/-- Modelled from the spec: `EncryptAndHash(plaintext)`:
`c := EncryptWithAd(h, plaintext)`; `MixHash(c)`; return `c`. -/
def SymmetricState.encryptAndHashVec (C : CipherT) (H : HashT) (pt : Bytes)
    (ss : SymmetricState) : Bytes × SymmetricState :=
  let r := ss.cs.encryptWithAd C ss.h pt
  (r.1, SymmetricState.mixHash H r.1 { ss with cs := r.2 })

/-- Modelled from the spec: `DecryptAndHash(ciphertext)`:
`p := DecryptWithAd(h, ciphertext)`; on success `MixHash(ciphertext)` (the
ciphertext, not the plaintext) and return `p`; on failure propagate the
authentication failure without mixing. -/
def SymmetricState.decryptAndHashVec (C : CipherT) (H : HashT) (ct : Bytes)
    (ss : SymmetricState) : Option (Bytes × SymmetricState) :=
  (ss.cs.decryptWithAd C ss.h ct).map fun r =>
    (r.1, SymmetricState.mixHash H ct { ss with cs := r.2 })

/-- Modelled from the spec: `Split()`: `(tempk1, tempk2) := HKDF(ck, "", 2)`,
truncate each to 32 bytes if needed, return two fresh keyed `CipherState`s
with `n = 0`. -/
def SymmetricState.split (H : HashT) (ss : SymmetricState) :
    CipherState × CipherState :=
  let p := hkdf2 H ss.ck []
  ({ k := some (truncKey H p.1), n := 0 }, { k := some (truncKey H p.2), n := 0 })

/-! ## Handshake pattern and state (src/src/handshakestate.rs) -/

/-- Token alphabet (`handshakepattern::Token`, no PSK in the legacy tree). -/
inductive Token where
  | E | S | EE | ES | SE | SS
  deriving DecidableEq, Repr

/-- A handshake pattern: name, the two pre-message token sequences and the
ordered message patterns. -/
structure HandshakePattern where
  name : Bytes
  preI : List Token
  preR : List Token
  msgs : List (List Token)
  deriving DecidableEq, Repr

/-- The `HandshakeState` record (handshakestate.rs lines 9-18): symmetric
state, optional local static/ephemeral private keys, optional remote
static/ephemeral public keys, role, pattern, message index. -/
structure HandshakeState where
  symmetric : SymmetricState
  s : Option Bytes
  e : Option Bytes
  rs : Option Bytes
  re : Option Bytes
  isInitiator : Bool
  pattern : HandshakePattern
  messageIndex : Nat
  deriving DecidableEq, Repr

/-- Protocol name `Noise_<pattern>_<DH>_<Cipher>_<Hash>` as a byte string
(`get_name`, handshakestate.rs lines 26-32); 95 is the ASCII underscore and
`[78, 111, 105, 115, 101, 95]` spells the `Noise_` tag. -/
def HandshakeState.getName (D : DHT) (C : CipherT) (H : HashT)
    (p : HandshakePattern) : Bytes :=
  [78, 111, 105, 115, 101, 95] ++ p.name ++ [95] ++ D.name ++ [95] ++ C.name ++ [95] ++ H.name

/-- One pre-message token in `new` (handshakestate.rs lines 48-71): only `S`
is handled — it mixes the local static public key when the pre-message is on
this party's side (`isLocal`) and `rs` otherwise, panicking (`none`) when the
key is absent; every other token hits `panic!("Unexpected token in pre
message")`. -/
def preStep (D : DHT) (H : HashT) (isLocal : Bool) (s rs : Option Bytes)
    (ss : SymmetricState) : Token → Option SymmetricState
  | Token.S =>
    (if isLocal then s.map D.pubkey else rs).map fun pk =>
      SymmetricState.mixHash H pk ss
  | _ => none

/-- Folding `preStep` over a pre-message token sequence. -/
def preFold (D : DHT) (H : HashT) (isLocal : Bool) (s rs : Option Bytes) :
    List Token → SymmetricState → Option SymmetricState
  | [], ss => some ss
  | t :: ts, ss => (preStep D H isLocal s rs ss t).bind (preFold D H isLocal s rs ts)

/-- `HandshakeState::new` (handshakestate.rs lines 34-83): initialize the
symmetric state from the protocol name, mix the prologue, then mix the
pre-message static keys (initiator side uses `isLocal = is_initiator`,
responder side the negation); panics are propagated as `none`. -/
def HandshakeState.new (D : DHT) (C : CipherT) (H : HashT)
    (pattern : HandshakePattern) (isInit : Bool) (prologue : Bytes)
    (s e rs re : Option Bytes) : Option HandshakeState :=
  let ss0 := SymmetricState.mixHash H prologue
    (SymmetricState.new H (HandshakeState.getName D C H pattern))
  (preFold D H isInit s rs pattern.preI ss0).bind fun ss1 =>
    (preFold D H (!isInit) s rs pattern.preR ss1).map fun ss2 =>
      { symmetric := ss2, s := s, e := e, rs := rs, re := re
        , isInitiator := isInit, pattern := pattern
        , messageIndex := 0 }

/-- Combine two optional keys through `DH::dh`; `none` models the `unwrap`
panic on a missing key. -/
def dhPair (D : DHT) : Option Bytes → Option Bytes → Option Bytes
  | some a, some b => some (D.dh a b)
  | _, _ => none

/-- `perform_dh` (handshakestate.rs lines 177-205): pick the private/public
key pair for a DH token according to the role; `unwrap` panics become `none`;
the `E`/`S` tokens are unreachable there. -/
def performDh (D : DHT) (isInit : Bool) (s e rs re : Option Bytes) :
    Token → Option Bytes
  | Token.EE => dhPair D e re
  | Token.ES => if isInit then dhPair D e rs else dhPair D s re
  | Token.SE => if isInit then dhPair D s re else dhPair D e rs
  | Token.SS => dhPair D s rs
  | _ => none

/-- Token loop of `write_message` (handshakestate.rs lines 97-113): `E` mixes
and appends the pre-supplied ephemeral's public key (no generation — the
source comment reads "Spec says that we should generate new ephemeral key,
but that would make testing very difficult"; `unwrap` on a missing `e`
panics); `S` appends `EncryptAndHash(s.pub)`; DH tokens call `perform_dh`
then `MixKey`. -/
def writeTokens (D : DHT) (C : CipherT) (H : HashT) (isInit : Bool)
    (s e rs re : Option Bytes) :
    List Token → Bytes → SymmetricState → Option (Bytes × SymmetricState)
  | [], out, ss => some (out, ss)
  | Token.E :: ts, out, ss =>
    match e with
    | none => none
    | some k =>
      let pk := D.pubkey k
      writeTokens D C H isInit s e rs re ts (out ++ pk)
        (SymmetricState.mixHash H pk ss)
  | Token.S :: ts, out, ss =>
    match s with
    | none => none
    | some k =>
      let r := SymmetricState.encryptAndHashVec C H (D.pubkey k) ss
      writeTokens D C H isInit s e rs re ts (out ++ r.1) r.2
  | t :: ts, out, ss =>
    (performDh D isInit s e rs re t).bind fun sh =>
      writeTokens D C H isInit s e rs re ts out (SymmetricState.mixKey H sh ss)

/-- `write_message` (handshakestate.rs lines 85-119): assert it is this
party's turn (initiator ⇔ even index), fetch the message pattern (out of
range panics), increment `message_index`, run the token loop, then append
`EncryptAndHash(payload)`. Panics are `none`. -/
def HandshakeState.writeMessage (D : DHT) (C : CipherT) (H : HashT)
    (hs : HandshakeState) (payload : Bytes) : Option (Bytes × HandshakeState) :=
  if hs.messageIndex % 2 = (if hs.isInitiator then 0 else 1) then
    match hs.pattern.msgs[hs.messageIndex]? with
    | none => none
    | some m =>
      (writeTokens D C H hs.isInitiator hs.s hs.e hs.rs hs.re m [] hs.symmetric).map
        fun r =>
          let p := SymmetricState.encryptAndHashVec C H payload r.2
          (r.1 ++ p.1, { hs with symmetric := p.2, messageIndex := hs.messageIndex + 1 })
  else
    none

/-- Error type of the legacy tree as used by `read_message`
(`NoiseError::TooShort`, `NoiseError::DecryptionFailed`). -/
inductive NoiseError where
  | tooShort | decryptionFailed
  deriving DecidableEq, Repr

/-- Outcome of the `read_message` token loop: a panic, an error carrying the
mutated symmetric state and remote keys (Rust mutates `self` in place, so the
partial effects persist), or success with the remaining input bytes. -/
inductive TokRes where
  | panic
  | err (e : NoiseError) (ss : SymmetricState) (rs re : Option Bytes)
  | ok (ss : SymmetricState) (rs re : Option Bytes) (rest : Bytes)
  deriving DecidableEq, Repr

/-- Token loop of `read_message` (handshakestate.rs lines 139-160): `E`
consumes `pub_len` bytes as `re` and mixes them (`TooShort` when fewer bytes
remain); `S` consumes `pub_len` bytes (`pub_len + 16` when the symmetric
cipher is keyed), decrypt-and-hashes them into `rs` (`DecryptionFailed` on
authentication failure); DH tokens call `perform_dh` then `MixKey`. -/
def readTokens (D : DHT) (C : CipherT) (H : HashT) (isInit : Bool)
    (s e : Option Bytes) :
    List Token → SymmetricState → Option Bytes → Option Bytes → Bytes → TokRes
  | [], ss, rs, re, data => TokRes.ok ss rs re data
  | Token.E :: ts, ss, rs, re, data =>
    if D.pubLen ≤ data.length then
      let reNew := data.take D.pubLen
      readTokens D C H isInit s e ts (SymmetricState.mixHash H reNew ss) rs
        (some reNew) (data.drop D.pubLen)
    else
      TokRes.err NoiseError.tooShort ss rs re
  | Token.S :: ts, ss, rs, re, data =>
    let need := if ss.hasKey then D.pubLen + 16 else D.pubLen
    if need ≤ data.length then
      match SymmetricState.decryptAndHashVec C H (data.take need) ss with
      | some r => readTokens D C H isInit s e ts r.2 (some r.1) re (data.drop need)
      | none => TokRes.err NoiseError.decryptionFailed ss rs re
    else
      TokRes.err NoiseError.tooShort ss rs re
  | t :: ts, ss, rs, re, data =>
    match performDh D isInit s e rs re t with
    | none => TokRes.panic
    | some sh =>
      readTokens D C H isInit s e ts (SymmetricState.mixKey H sh ss) rs re data

/-- Outcome of `read_message` as observed by the caller: a panic, an error
together with the state left behind (Rust's `&mut self` keeps its mutations
on the error path), or the decrypted payload with the final state. -/
inductive RMRes where
  | panic
  | err (e : NoiseError) (hs : HandshakeState)
  | ok (payload : Bytes) (hs : HandshakeState)
  deriving DecidableEq, Repr

/-- The handshake state as it stands after `read_message` has fetched the
pattern: `message_index` is incremented first (handshakestate.rs line 127),
before any token is processed, and the token loop only ever touches
`symmetric`, `rs` and `re`. -/
def rmAssemble (hs : HandshakeState) (ss : SymmetricState)
    (rs re : Option Bytes) : HandshakeState :=
  { hs with symmetric := ss, rs := rs, re := re
            , messageIndex := hs.messageIndex + 1 }

/-- Final step of `read_message` (handshakestate.rs line 162): the remaining
bytes are the encrypted payload; `DecryptAndHash` them, failing with
`DecryptionFailed` on authentication failure. -/
def finishRead (C : CipherT) (H : HashT) (hs : HandshakeState)
    (ss : SymmetricState) (rs re : Option Bytes) (rest : Bytes) : RMRes :=
  match SymmetricState.decryptAndHashVec C H rest ss with
  | none => RMRes.err NoiseError.decryptionFailed (rmAssemble hs ss rs re)
  | some r => RMRes.ok r.1 (rmAssemble hs r.2 rs re)

/-- `read_message` (handshakestate.rs lines 121-163): assert it is this
party's turn to receive (initiator ⇔ odd index), fetch the message pattern,
increment `message_index`, run the token loop over a cursor into the input,
then decrypt the trailing payload. -/
def HandshakeState.readMessage (D : DHT) (C : CipherT) (H : HashT)
    (hs : HandshakeState) (data : Bytes) : RMRes :=
  if hs.messageIndex % 2 = (if hs.isInitiator then 1 else 0) then
    match hs.pattern.msgs[hs.messageIndex]? with
    | none => RMRes.panic
    | some m =>
      match readTokens D C H hs.isInitiator hs.s hs.e m hs.symmetric hs.rs hs.re data with
      | TokRes.panic => RMRes.panic
      | TokRes.err e ss rs re => RMRes.err e (rmAssemble hs ss rs re)
      | TokRes.ok ss rs re rest => finishRead C H hs ss rs re rest
  else
    RMRes.panic

/-- `completed` (handshakestate.rs lines 165-167). -/
def HandshakeState.completed (hs : HandshakeState) : Bool :=
  hs.messageIndex = hs.pattern.msgs.length

/-- `get_hash` (handshakestate.rs lines 169-171). -/
def HandshakeState.getHash (hs : HandshakeState) : Bytes :=
  hs.symmetric.h

/-- `get_ciphers` (handshakestate.rs lines 173-175): it simply splits the
current symmetric state — it takes `&self`, performs no completion check and
leaves the handshake state untouched. -/
def HandshakeState.getCiphers (H : HashT) (hs : HandshakeState) :
    CipherState × CipherState :=
  hs.symmetric.split H

/-- Modelled from the spec: `Split() → (CipherState, CipherState)` is "legal
only when finished; consumes the handshake state" — the spec-faithful variant
refuses to split an unfinished handshake. -/
def splitSpec (H : HashT) (hs : HandshakeState) :
    Option (CipherState × CipherState) :=
  if hs.completed then some (hs.symmetric.split H) else none

/-! ## Helper lemmas -/

theorem u64ToLe_length (n : Nat) : (u64ToLe n).length = 8 := by
  simp [u64ToLe]

theorem u64ToBe_length (n : Nat) : (u64ToBe n).length = 8 := by
  simp [u64ToBe]

theorem specIv96_length (b : Bool) (n : Nat) : (specIv96 b n).length = 12 := by
  cases b <;> simp [specIv96, u64ToLe_length, u64ToBe_length]

theorem copyFromSlice_iv (src : Bytes) (h : src.length = 8) :
    copyFromSlice (List.replicate 12 0) 4 src = List.replicate 4 0 ++ src := by
  rw [copyFromSlice, h]
  norm_num [List.take_replicate, List.drop_replicate]

/-! ## Claim C4 — nonce encoding into the AEAD IV -/

/-- Claim C4, counterexample: the legacy `ChaCha20Poly1305` wrapper does not
build a 96-bit IV of 32 zero bits followed by the little-endian counter — at
nonce 0 it hands the ChaCha20 core an 8-byte buffer, not the 12-byte IV the
claim describes. -/
theorem C4_counterexample :
    legacyChaChaNonceBytes 0 ≠ specIv96 true 0 ∧
      (legacyChaChaNonceBytes 0).length = 8 := by
  constructor
  · intro h
    have := congrArg List.length h
    rw [specIv96_length] at this
    simp [legacyChaChaNonceBytes, u64ToLe_length] at this
  · exact u64ToLe_length 0

/-- Claim C4, amended: the new-tree ChaCha20-Poly1305 and AES-256-GCM ciphers
and the legacy AES-256-GCM wrapper encode the 64-bit nonce into a 96-bit IV
of 32 zero bits followed by the counter (little-endian for ChaCha20-Poly1305,
big-endian for AES-GCM) before invoking the AEAD; the legacy
ChaCha20-Poly1305 wrapper instead passes the bare 8-byte little-endian
counter as the nonce of the original ChaCha20 variant. -/
theorem C4_nonce_encoding : ∀ n : Nat,
    chachaFullNonce n = specIv96 true n ∧
      aesGcmFullNonce n = specIv96 false n ∧
      legacyAesNonceBytes n = specIv96 false n ∧
      legacyChaChaNonceBytes n ≠ specIv96 true n := by
  intro n
  refine ⟨?_, ?_, ?_, ?_⟩
  · rw [chachaFullNonce, copyFromSlice_iv _ (u64ToLe_length n)]; rfl
  · rw [aesGcmFullNonce, copyFromSlice_iv _ (u64ToBe_length n)]; rfl
  · rw [legacyAesNonceBytes, copyFromSlice_iv _ (u64ToBe_length n)]; rfl
  · intro h
    have := congrArg List.length h
    rw [specIv96_length] at this
    simp [legacyChaChaNonceBytes, u64ToLe_length] at this

/-! ## Claim C7 — fallibility of the DH operation -/

/-- Claim C7, counterexample: at the all-zero peer public key (the canonical
low-order point, the very example the claim gives for a failing DH), the
new-tree `X25519::dh` still returns `Ok` — it never surfaces an error. -/
theorem C7_counterexample :
    (X25519.dhNew extMulModel extDecodeModel (List.replicate 32 1)
      (List.replicate 32 0) false).isOk = true := rfl

/-- Claim C7, amended: the DH operation cannot fail. The new-tree
`X25519::dh` wraps every scalar-multiplication result unconditionally in
`Ok`, whatever the peer public key (low-order points included), and the
legacy `X25519::dh` is infallible by its very signature; consequently no
`InvalidPublicKey` error is ever surfaced to the handshake. -/
theorem C7_dh_never_fails :
    ∀ (mul : Bytes → Bytes → Bytes) (decodeRep : Bytes → Bytes) (k pk : Bytes) (b : Bool),
      ∃ v, X25519.dhNew mul decodeRep k pk b = Except.ok v ∧
        X25519.dhLegacy mul k pk = mul k pk :=
  fun mul decodeRep k pk b => ⟨mul k (if b then decodeRep pk else pk), rfl, rfl⟩

/-! ## Claim C10 — short-ciphertext handling at the decryption interface -/

/-- Claim C10: a ciphertext shorter than the 16-byte tag makes the legacy
`Aes256Gcm::decrypt` panic on the underflowing `ciphertext.len() - 16`
instead of returning its `bool` authentication verdict, and makes the
new-tree `decrypt_in_place` panic on its explicit `ciphertext_len >= 16`
assertion. -/
theorem C10_short_ciphertext_panics :
    (∀ (core : Bytes → Bytes → Bytes → Bytes → Bytes → Bool)
       (key : Bytes) (nonce : Nat) (ad ct : Bytes), ct.length < 16 →
       aesLegacyDecrypt core key nonce ad ct = none) ∧
    (∀ (core : Bytes → Bytes → Bytes → Bytes → Bytes → Option Bytes)
       (key : Bytes) (nonce : Nat) (ad ct : Bytes), ct.length < 16 →
       chachaDecryptInPlaceNew core key nonce ad ct = none) := by
  constructor
  · intro core key nonce ad ct h
    rw [aesLegacyDecrypt, if_neg (by omega)]
  · intro core key nonce ad ct h
    rw [chachaDecryptInPlaceNew, if_neg (by omega)]

/-- Claim C10, witness: the empty ciphertext (shorter than 16 bytes) makes
both decryption interfaces panic. -/
theorem C10_short_ciphertext_panics_witness :
    aesLegacyDecrypt (fun _ _ _ _ _ => true) [] 0 [] [] = none ∧
      chachaDecryptInPlaceNew (fun _ _ _ _ _ => none) [] 0 [] [] = none :=
  ⟨C10_short_ciphertext_panics.1 _ [] 0 [] [] (by decide),
   C10_short_ciphertext_panics.2 _ [] 0 [] [] (by decide)⟩

/-! ## Concrete capability instances

Tiny executable instances used only to instantiate witnesses and
counterexamples; the claims themselves are settled generically. -/

/-- A deterministic 16-byte tag for the toy AEAD below. -/
def toyTag (key : Bytes) (n : Nat) (ad pt : Bytes) : Bytes :=
  List.replicate 16 ((key.sum + n + ad.sum + pt.sum + pt.length) % 256)

/-- A toy AEAD satisfying the spec's cipher contract: the ciphertext is the
plaintext followed by a 16-byte tag over key, nonce, associated data and
plaintext; decryption recomputes and checks the tag. -/
def toyCipher : CipherT where
  name := [116]
  encrypt := fun k n ad pt => pt ++ toyTag k n ad pt
  decrypt := fun k n ad ct =>
    if 16 ≤ ct.length ∧ ct.drop (ct.length - 16) = toyTag k n ad (ct.take (ct.length - 16))
    then some (ct.take (ct.length - 16)) else none

/-- A toy hash: two bytes summarizing length and content. -/
def toyHash : HashT where
  name := [104]
  hashLen := 2
  blockLen := 4
  hash := fun l => [l.length % 256, l.sum % 256]

/-- A toy DH with one-byte public keys. -/
def toyDH : DHT where
  pubLen := 1
  name := [49]
  pubkey := fun k => [(k.sum + 1) % 256]
  dh := fun a b => a ++ b

theorem toyCipher_roundtrip : ∀ (k : Bytes) (n : Nat) (ad pt : Bytes),
    toyCipher.decrypt k n ad (toyCipher.encrypt k n ad pt) = some pt := by
  intro k n ad pt
  have hlen : (pt ++ toyTag k n ad pt).length = pt.length + 16 := by simp [toyTag]
  have hl : (pt ++ toyTag k n ad pt).length - 16 = pt.length := by omega
  have htake : (pt ++ toyTag k n ad pt).take pt.length = pt := List.take_left _ _
  have hdrop : (pt ++ toyTag k n ad pt).drop pt.length = toyTag k n ad pt :=
    List.drop_left _ _
  simp [toyCipher, hl, htake, hdrop, hlen]

/-! ## Claim C9 — DecryptAndHash inverts EncryptAndHash -/

/-- Claim C9: for any cipher whose AEAD satisfies the round-trip contract of
the spec's cipher capability, and for every symmetric pre-state (any key `k`,
nonce `n` and transcript hash `h`) and plaintext, `DecryptAndHash` applied to
the output of `EncryptAndHash` from the same pre-state succeeds, returns
exactly the plaintext, and reaches the same post-state. -/
theorem C9_decryptAndHash_inverts (C : CipherT) (H : HashT)
    (hrt : ∀ (key : Bytes) (n : Nat) (ad pt : Bytes),
      C.decrypt key n ad (C.encrypt key n ad pt) = some pt)
    (ss : SymmetricState) (pt : Bytes) :
    SymmetricState.decryptAndHashVec C H
        (SymmetricState.encryptAndHashVec C H pt ss).1 ss
      = some (pt, (SymmetricState.encryptAndHashVec C H pt ss).2) := by
  cases hk : ss.cs.k with
  | none =>
    simp [SymmetricState.encryptAndHashVec, SymmetricState.decryptAndHashVec,
      CipherState.encryptWithAd, CipherState.decryptWithAd, hk]
  | some key =>
    simp [SymmetricState.encryptAndHashVec, SymmetricState.decryptAndHashVec,
      CipherState.encryptWithAd, CipherState.decryptWithAd, hk, hrt]

/-- A small symmetric pre-state with a keyed cipher and a nonzero nonce. -/
def ssKeyed : SymmetricState :=
  { cs := { k := some [7], n := 3 }, ck := [1, 2], h := [9, 9] }

/-- Claim C9, witness: the round trip at a concrete keyed pre-state and
plaintext, with the toy AEAD discharging the cipher contract. -/
theorem C9_decryptAndHash_inverts_witness :
    SymmetricState.decryptAndHashVec toyCipher toyHash
        (SymmetricState.encryptAndHashVec toyCipher toyHash [1, 2, 3] ssKeyed).1 ssKeyed
      = some ([1, 2, 3], (SymmetricState.encryptAndHashVec toyCipher toyHash [1, 2, 3] ssKeyed).2) :=
  C9_decryptAndHash_inverts toyCipher toyHash toyCipher_roundtrip ssKeyed [1, 2, 3]

/-! ## Claim C8 — strict alternation of WriteMessage / ReadMessage -/

/-- Claim C8: `write_message` asserts that the message index is even exactly
when the party is the initiator, and `read_message` asserts that it is odd
exactly when the party is the initiator; an out-of-turn call panics instead
of being processed. -/
theorem C8_turn_assertion :
    (∀ (D : DHT) (C : CipherT) (H : HashT) (hs : HandshakeState) (payload : Bytes),
       ¬(hs.messageIndex % 2 = 0 ↔ hs.isInitiator = true) →
       HandshakeState.writeMessage D C H hs payload = none) ∧
    (∀ (D : DHT) (C : CipherT) (H : HashT) (hs : HandshakeState) (data : Bytes),
       ¬(hs.messageIndex % 2 = 1 ↔ hs.isInitiator = true) →
       HandshakeState.readMessage D C H hs data = RMRes.panic) := by
  constructor
  · intro D C H hs payload h
    have hg : ¬(hs.messageIndex % 2 = (if hs.isInitiator then 0 else 1)) := by
      intro hg
      apply h
      cases hb : hs.isInitiator <;> rw [hb] at hg <;> simp at hg ⊢ <;> omega
    rw [HandshakeState.writeMessage, if_neg hg]
  · intro D C H hs data h
    have hg : ¬(hs.messageIndex % 2 = (if hs.isInitiator then 1 else 0)) := by
      intro hg
      apply h
      cases hb : hs.isInitiator <;> rw [hb] at hg <;> simp at hg ⊢ <;> omega
    rw [HandshakeState.readMessage, if_neg hg]

/-- A one-message pattern consisting of a single `E` token. -/
def patE : HandshakePattern :=
  { name := [78], preI := [], preR := [], msgs := [[Token.E]] }

/-- A responder state at message index 0 (not its turn to send). -/
def hsTurnW : HandshakeState :=
  { symmetric := SymmetricState.new toyHash [1], s := none, e := none
    , rs := none, re := none, isInitiator := false, pattern := patE
    , messageIndex := 0 }

/-- An initiator state at message index 0 (not its turn to receive). -/
def hsTurnR : HandshakeState :=
  { symmetric := SymmetricState.new toyHash [1], s := none, e := none
    , rs := none, re := none, isInitiator := true, pattern := patE
    , messageIndex := 0 }

/-- Claim C8, witness: a responder writing at index 0 and an initiator
reading at index 0 both hit the turn assertion. -/
theorem C8_turn_assertion_witness :
    HandshakeState.writeMessage toyDH toyCipher toyHash hsTurnW [] = none ∧
      HandshakeState.readMessage toyDH toyCipher toyHash hsTurnR [] = RMRes.panic :=
  ⟨C8_turn_assertion.1 toyDH toyCipher toyHash hsTurnW [] (by decide),
   C8_turn_assertion.2 toyDH toyCipher toyHash hsTurnR [] (by decide)⟩

/-! ## Concrete handshake states for witnesses and counterexamples -/

/-- A one-message pattern consisting of a single `S` token. -/
def patS : HandshakePattern :=
  { name := [78], preI := [], preR := [], msgs := [[Token.S]] }

/-- An initiator at message index 0 of `patE` with no ephemeral key supplied. -/
def hsInitNoE : HandshakeState :=
  { symmetric := SymmetricState.new toyHash [1], s := none, e := none
    , rs := none, re := none, isInitiator := true, pattern := patE
    , messageIndex := 0 }

/-- An initiator at message index 0 of `patE` with a pre-supplied ephemeral. -/
def hsInitE : HandshakeState :=
  { symmetric := SymmetricState.new toyHash [1], s := none, e := some [3]
    , rs := none, re := none, isInitiator := true, pattern := patE
    , messageIndex := 0 }

/-- A responder about to read message 0 of `patE`. -/
def hsResp0 : HandshakeState :=
  { symmetric := SymmetricState.new toyHash [1], s := none, e := none
    , rs := none, re := none, isInitiator := false, pattern := patE
    , messageIndex := 0 }

/-- A responder about to read message 0 of `patS`. -/
def hsRespS : HandshakeState :=
  { symmetric := SymmetricState.new toyHash [1], s := none, e := none
    , rs := none, re := none, isInitiator := false, pattern := patS
    , messageIndex := 0 }

/-! ## Claim C1 — ephemeral handling in WriteMessage -/

/-- Claim C1, counterexample: with no pre-supplied ephemeral (`e = None`) and
an `E` token to process, `write_message` does not generate a fresh keypair —
it panics on the `unwrap` and produces no output at all. -/
theorem C1_counterexample :
    hsInitNoE.e = none ∧
      HandshakeState.writeMessage toyDH toyCipher toyHash hsInitNoE [] = none := by
  decide

/-- Claim C1, amended: `write_message` never generates an ephemeral keypair
(no RNG is involved): on an `E` token it always reuses the pre-supplied `e`,
panicking when `e` is `None`; when `e` is present its public key is appended
to the output buffer and mixed into the transcript hash via `MixHash`, and
`e` itself is left unchanged in the state. -/
theorem C1_ephemeral_reuse_only (D : DHT) (C : CipherT) (H : HashT)
    (hs : HandshakeState) (payload k : Bytes)
    (hturn : hs.messageIndex % 2 = (if hs.isInitiator then 0 else 1))
    (hmsg : hs.pattern.msgs[hs.messageIndex]? = some [Token.E]) :
    (hs.e = none → HandshakeState.writeMessage D C H hs payload = none) ∧
    (hs.e = some k →
      HandshakeState.writeMessage D C H hs payload =
        some (D.pubkey k ++
            (SymmetricState.encryptAndHashVec C H payload
              (SymmetricState.mixHash H (D.pubkey k) hs.symmetric)).1,
          { hs with
            symmetric := (SymmetricState.encryptAndHashVec C H payload
              (SymmetricState.mixHash H (D.pubkey k) hs.symmetric)).2
            , messageIndex := hs.messageIndex + 1 })) := by
  constructor
  · intro he
    simp [HandshakeState.writeMessage, hturn, hmsg, writeTokens, he]
  · intro he
    simp [HandshakeState.writeMessage, hturn, hmsg, writeTokens, he]

/-- Claim C1, witness: the amended statement at a concrete initiator state
with ephemeral `[3]` and empty payload. -/
theorem C1_ephemeral_reuse_only_witness :
    (hsInitE.e = none →
      HandshakeState.writeMessage toyDH toyCipher toyHash hsInitE [] = none) ∧
    (hsInitE.e = some [3] →
      HandshakeState.writeMessage toyDH toyCipher toyHash hsInitE [] =
        some (toyDH.pubkey [3] ++
            (SymmetricState.encryptAndHashVec toyCipher toyHash []
              (SymmetricState.mixHash toyHash (toyDH.pubkey [3]) hsInitE.symmetric)).1,
          { hsInitE with
            symmetric := (SymmetricState.encryptAndHashVec toyCipher toyHash []
              (SymmetricState.mixHash toyHash (toyDH.pubkey [3]) hsInitE.symmetric)).2
            , messageIndex := hsInitE.messageIndex + 1 })) :=
  C1_ephemeral_reuse_only toyDH toyCipher toyHash hsInitE [] [3]
    (by decide) (by decide)

/-! ## Claim C2 — state after a failing ReadMessage -/

/-- A one-message pattern consisting of an `E` token followed by an `S`
token. -/
def patES : HandshakePattern :=
  { name := [78], preI := [], preR := [], msgs := [[Token.E, Token.S]] }

/-- A responder about to read message 0 of `patES`. -/
def hsRespES : HandshakeState :=
  { symmetric := SymmetricState.new toyHash [1], s := none, e := none
    , rs := none, re := none, isInitiator := false, pattern := patES
    , messageIndex := 0 }

/-- Claim C2, counterexample: a `read_message` on the pattern `E, S` whose
input covers the `E` token but runs out at the `S` token fails with
`TooShort`, yet the caller observes a mutated state: `message_index` went
from 0 to 1, `re` from `None` to the consumed bytes, and the transcript hash
`h` was mixed with them. -/
theorem C2_counterexample :
    HandshakeState.readMessage toyDH toyCipher toyHash hsRespES [9] =
        RMRes.err NoiseError.tooShort
          { hsRespES with
            symmetric := SymmetricState.mixHash toyHash [9] hsRespES.symmetric
            , re := some [9], messageIndex := 1 } ∧
      hsRespES.messageIndex = 0 ∧
      hsRespES.re = none ∧
      (SymmetricState.mixHash toyHash [9] hsRespES.symmetric).h ≠
        hsRespES.symmetric.h := by
  decide

/-- Claim C2, amended: after a `read_message` call that returns an error
(`TooShort` or `DecryptionFailed`), `message_index` has always been
incremented by exactly one (it is bumped before any token is processed);
moreover the effects of tokens processed before the failure persist in the
returned state: when an `E` token has consumed its bytes and a later token
fails `TooShort`, the error state retains the mixed transcript hash and the
overwritten `re`. The failed state must not be reused. -/
theorem C2_error_partial_mutation :
    (∀ (D : DHT) (C : CipherT) (H : HashT) (hs : HandshakeState) (data : Bytes)
       (e : NoiseError) (hs2 : HandshakeState),
       HandshakeState.readMessage D C H hs data = RMRes.err e hs2 →
       hs2.messageIndex = hs.messageIndex + 1) ∧
    (∀ (D : DHT) (C : CipherT) (H : HashT) (hs : HandshakeState) (data : Bytes),
       hs.messageIndex % 2 = (if hs.isInitiator then 1 else 0) →
       hs.pattern.msgs[hs.messageIndex]? = some [Token.E, Token.S] →
       D.pubLen ≤ data.length →
       (data.drop D.pubLen).length <
         (if (SymmetricState.mixHash H (data.take D.pubLen) hs.symmetric).hasKey
          then D.pubLen + 16 else D.pubLen) →
       HandshakeState.readMessage D C H hs data =
         RMRes.err NoiseError.tooShort
           (rmAssemble hs
             (SymmetricState.mixHash H (data.take D.pubLen) hs.symmetric)
             hs.rs (some (data.take D.pubLen)))) := by
  constructor
  · intro D C H hs data e hs2 h
    unfold HandshakeState.readMessage at h
    by_cases hg : hs.messageIndex % 2 = (if hs.isInitiator then 1 else 0)
    · rw [if_pos hg] at h
      cases hm : hs.pattern.msgs[hs.messageIndex]? with
      | none => rw [hm] at h; exact RMRes.noConfusion h
      | some m =>
        rw [hm] at h
        dsimp only at h
        cases ht : readTokens D C H hs.isInitiator hs.s hs.e m hs.symmetric hs.rs hs.re data with
        | panic => rw [ht] at h; exact RMRes.noConfusion h
        | err e2 ss rs re =>
          rw [ht] at h
          injection h with h1 h2
          rw [← h2]; rfl
        | ok ss rs re rest =>
          rw [ht] at h
          dsimp only at h
          unfold finishRead at h
          cases hdec : SymmetricState.decryptAndHashVec C H rest ss with
          | none =>
            rw [hdec] at h
            dsimp only at h
            injection h with h1 h2
            rw [← h2]; rfl
          | some r =>
            rw [hdec] at h
            dsimp only at h
            exact RMRes.noConfusion h
    · rw [if_neg hg] at h
      exact RMRes.noConfusion h
  · intro D C H hs data hturn hmsg hge hshort
    have hnle : ¬ ((if (SymmetricState.mixHash H (data.take D.pubLen) hs.symmetric).hasKey
        then D.pubLen + 16 else D.pubLen) ≤ (data.drop D.pubLen).length) :=
      Nat.not_le.mpr hshort
    rw [List.length_drop] at hnle
    simp [HandshakeState.readMessage, hturn, hmsg, readTokens, hge, hnle]

/-- Claim C2, witness: the amended statement at the concrete failing call of
the counterexample — both the index bump and the persistence of the `E`
token's effects. -/
theorem C2_error_partial_mutation_witness :
    (rmAssemble hsRespES (SymmetricState.mixHash toyHash [9] hsRespES.symmetric)
        hsRespES.rs (some [9])).messageIndex = hsRespES.messageIndex + 1 ∧
      HandshakeState.readMessage toyDH toyCipher toyHash hsRespES [9] =
        RMRes.err NoiseError.tooShort
          (rmAssemble hsRespES
            (SymmetricState.mixHash toyHash (List.take toyDH.pubLen [9]) hsRespES.symmetric)
            hsRespES.rs (some (List.take toyDH.pubLen [9]))) :=
  ⟨C2_error_partial_mutation.1 toyDH toyCipher toyHash hsRespES [9]
      NoiseError.tooShort
      (rmAssemble hsRespES (SymmetricState.mixHash toyHash [9] hsRespES.symmetric)
        hsRespES.rs (some [9])) (by decide),
   C2_error_partial_mutation.2 toyDH toyCipher toyHash hsRespES [9]
      (by decide) (by decide) (by decide) (by decide)⟩

/-! ## Claim C3 — legality and consumption of Split -/

/-- Claim C3, counterexample: on an unfinished handshake (`completed` is
false, so the spec-faithful `splitSpec` refuses), `get_ciphers` nevertheless
returns a usable cipher pair, and the same state can still drive
`write_message` afterwards — nothing is consumed or invalidated. -/
theorem C3_counterexample :
    HandshakeState.completed hsInitE = false ∧
      splitSpec toyHash hsInitE = none ∧
      (HandshakeState.getCiphers toyHash hsInitE).1.k.isSome = true ∧
      (HandshakeState.writeMessage toyDH toyCipher toyHash hsInitE []).isSome = true := by
  decide

/-- Claim C3, amended: `get_ciphers` performs no completion check and does
not consume the handshake state: it is a read-only function of the symmetric
state whose result is independent of `message_index`, and the state remains
fully usable afterwards; calling it only once the handshake is finished is
left to the caller. -/
theorem C3_getCiphers_unguarded :
    ∀ (H : HashT) (hs : HandshakeState) (i : Nat),
      HandshakeState.getCiphers H { hs with messageIndex := i } =
        HandshakeState.getCiphers H hs := by
  intro H hs i
  rfl

/-! ## Claim C5 — pre-message processing during initialization -/

/-- A pattern whose initiator pre-message is a single `E` token. -/
def patPreE : HandshakePattern :=
  { name := [78], preI := [Token.E], preR := [], msgs := [[Token.E]] }

/-- Claim C5, counterexample: with every key supplied, an `E` token in the
initiator pre-message makes `new` panic (`Unexpected token in pre message`)
instead of mixing the corresponding public key into the transcript hash. -/
theorem C5_counterexample :
    HandshakeState.new toyDH toyCipher toyHash patPreE true []
      (some [1]) (some [2]) (some [3]) (some [4]) = none := by
  decide

/-- Claim C5, amended: during initialization only `S` pre-message tokens are
supported — each mixes via `MixHash` the local static public key when the
pre-message is on this party's side (`isLocal = true`) and the remote static
`rs` otherwise (`isLocal = false`); an `E` pre-message token panics rather
than mixing an ephemeral, and an absent required key — the local `s` on the
local side, `rs` on the remote side — panics rather than reporting an
error. -/
theorem C5_premessage_tokens :
    (∀ (D : DHT) (H : HashT) (l : Bool) (s rs : Option Bytes) (ts : List Token)
       (ss : SymmetricState), Token.E ∈ ts →
       preFold D H l s rs ts ss = none) ∧
    (∀ (D : DHT) (H : HashT) (rs : Option Bytes) (ts : List Token)
       (ss : SymmetricState), Token.S ∈ ts →
       preFold D H true none rs ts ss = none) ∧
    (∀ (D : DHT) (H : HashT) (k : Bytes) (rs : Option Bytes) (m : Nat)
       (ss : SymmetricState),
       preFold D H true (some k) rs (List.replicate m Token.S) ss =
         some ((SymmetricState.mixHash H (D.pubkey k))^[m] ss)) ∧
    (∀ (D : DHT) (H : HashT) (s : Option Bytes) (ts : List Token)
       (ss : SymmetricState), Token.S ∈ ts →
       preFold D H false s none ts ss = none) ∧
    (∀ (D : DHT) (H : HashT) (s : Option Bytes) (p : Bytes) (m : Nat)
       (ss : SymmetricState),
       preFold D H false s (some p) (List.replicate m Token.S) ss =
         some ((SymmetricState.mixHash H p)^[m] ss)) := by
  refine ⟨?_, ?_, ?_, ?_, ?_⟩
  · intro D H l s rs ts ss hm
    induction ts generalizing ss with
    | nil => simp at hm
    | cons t ts ih =>
      rcases List.mem_cons.mp hm with h1 | h2
      · rw [← h1]
        simp [preFold, preStep]
      · cases hst : preStep D H l s rs ss t with
        | none => simp [preFold, hst]
        | some ss2 => simp [preFold, hst]; exact ih ss2 h2
  · intro D H rs ts ss hm
    cases ts with
    | nil => simp at hm
    | cons t ts => cases t <;> simp [preFold, preStep]
  · intro D H k rs m ss
    induction m generalizing ss with
    | zero => simp [preFold]
    | succ m ih =>
      rw [List.replicate_succ]
      simp [preFold, preStep]
      rw [ih]
  · intro D H s ts ss hm
    cases ts with
    | nil => simp at hm
    | cons t ts => cases t <;> simp [preFold, preStep]
  · intro D H s p m ss
    induction m generalizing ss with
    | zero => simp [preFold]
    | succ m ih =>
      rw [List.replicate_succ]
      simp [preFold, preStep]
      rw [ih]

/-- Claim C5, witness: the amended statement at concrete token lists — an `E`
pre-message panics; on the local side a missing static panics on `S` and two
`S` tokens with the static present mix its public key twice; on the remote
side a missing `rs` panics on `S` and two `S` tokens with `rs` present mix
`rs` itself twice. -/
theorem C5_premessage_tokens_witness :
    preFold toyDH toyHash true (some [1]) (some [2]) [Token.E]
        (SymmetricState.new toyHash [1]) = none ∧
      preFold toyDH toyHash true none (some [2]) [Token.S]
        (SymmetricState.new toyHash [1]) = none ∧
      preFold toyDH toyHash true (some [1]) (some [2]) (List.replicate 2 Token.S)
        (SymmetricState.new toyHash [1]) =
        some ((SymmetricState.mixHash toyHash (toyDH.pubkey [1]))^[2]
          (SymmetricState.new toyHash [1])) ∧
      preFold toyDH toyHash false (some [1]) none [Token.S]
        (SymmetricState.new toyHash [1]) = none ∧
      preFold toyDH toyHash false (some [1]) (some [2]) (List.replicate 2 Token.S)
        (SymmetricState.new toyHash [1]) =
        some ((SymmetricState.mixHash toyHash [2])^[2]
          (SymmetricState.new toyHash [1])) :=
  ⟨C5_premessage_tokens.1 toyDH toyHash true (some [1]) (some [2]) [Token.E]
      (SymmetricState.new toyHash [1]) (by decide),
   C5_premessage_tokens.2.1 toyDH toyHash (some [2]) [Token.S]
      (SymmetricState.new toyHash [1]) (by decide),
   C5_premessage_tokens.2.2.1 toyDH toyHash [1] (some [2]) 2
      (SymmetricState.new toyHash [1]),
   C5_premessage_tokens.2.2.2.1 toyDH toyHash (some [1]) [Token.S]
      (SymmetricState.new toyHash [1]) (by decide),
   C5_premessage_tokens.2.2.2.2 toyDH toyHash (some [1]) [2] 2
      (SymmetricState.new toyHash [1])⟩

/-! ## Claim C6 — byte consumption and errors in ReadMessage -/

/-- Claim C6: in `read_message`, an `E` token consumes exactly `pub_len`
bytes of the input as `re` (mixing them into the transcript hash) and hands
the rest to the payload phase, failing with `TooShort` when fewer bytes
remain; an `S` token consumes exactly `pub_len` bytes when the symmetric
cipher is unkeyed and `pub_len + 16` bytes when it is keyed, failing with
`TooShort` when the input is shorter and with `DecryptionFailed` when
decryption of the `S` field fails; a failing trailing-payload decryption
yields `DecryptionFailed` (the `finishRead` phase). -/
theorem C6_read_consumption :
    (∀ (D : DHT) (C : CipherT) (H : HashT) (hs : HandshakeState) (data : Bytes),
       hs.messageIndex % 2 = (if hs.isInitiator then 1 else 0) →
       hs.pattern.msgs[hs.messageIndex]? = some [Token.E] →
       (data.length < D.pubLen →
         HandshakeState.readMessage D C H hs data =
           RMRes.err NoiseError.tooShort (rmAssemble hs hs.symmetric hs.rs hs.re)) ∧
       (D.pubLen ≤ data.length →
         HandshakeState.readMessage D C H hs data =
           finishRead C H hs
             (SymmetricState.mixHash H (data.take D.pubLen) hs.symmetric)
             hs.rs (some (data.take D.pubLen)) (data.drop D.pubLen))) ∧
    (∀ (D : DHT) (C : CipherT) (H : HashT) (hs : HandshakeState) (data : Bytes),
       hs.messageIndex % 2 = (if hs.isInitiator then 1 else 0) →
       hs.pattern.msgs[hs.messageIndex]? = some [Token.S] →
       (data.length < (if hs.symmetric.hasKey then D.pubLen + 16 else D.pubLen) →
         HandshakeState.readMessage D C H hs data =
           RMRes.err NoiseError.tooShort (rmAssemble hs hs.symmetric hs.rs hs.re)) ∧
       ((if hs.symmetric.hasKey then D.pubLen + 16 else D.pubLen) ≤ data.length →
         HandshakeState.readMessage D C H hs data =
           match SymmetricState.decryptAndHashVec C H
               (data.take (if hs.symmetric.hasKey then D.pubLen + 16 else D.pubLen))
               hs.symmetric with
           | none =>
             RMRes.err NoiseError.decryptionFailed
               (rmAssemble hs hs.symmetric hs.rs hs.re)
           | some r =>
             finishRead C H hs r.2 (some r.1) hs.re
               (data.drop (if hs.symmetric.hasKey then D.pubLen + 16 else D.pubLen)))) := by
  constructor
  · intro D C H hs data hturn hmsg
    constructor
    · intro hlt
      have hnle : ¬ D.pubLen ≤ data.length := Nat.not_le.mpr hlt
      simp [HandshakeState.readMessage, hturn, hmsg, readTokens, hnle]
    · intro hge
      simp [HandshakeState.readMessage, hturn, hmsg, readTokens, hge]
  · intro D C H hs data hturn hmsg
    constructor
    · intro hlt
      have hnle : ¬ (if hs.symmetric.hasKey then D.pubLen + 16 else D.pubLen) ≤ data.length :=
        Nat.not_le.mpr hlt
      simp [HandshakeState.readMessage, hturn, hmsg, readTokens, hnle]
    · intro hge
      simp only [HandshakeState.readMessage, hturn, hmsg, readTokens, if_pos hge]
      cases hdec : SymmetricState.decryptAndHashVec C H
          (data.take (if hs.symmetric.hasKey then D.pubLen + 16 else D.pubLen))
          hs.symmetric with
      | none => simp [readTokens, hdec]
      | some r => simp [readTokens, hdec]

/-- Claim C6, witness: the `TooShort` branches of both token kinds at
concrete responder states fed the empty message. -/
theorem C6_read_consumption_witness :
    HandshakeState.readMessage toyDH toyCipher toyHash hsResp0 [] =
        RMRes.err NoiseError.tooShort
          (rmAssemble hsResp0 hsResp0.symmetric hsResp0.rs hsResp0.re) ∧
      HandshakeState.readMessage toyDH toyCipher toyHash hsRespS [] =
        RMRes.err NoiseError.tooShort
          (rmAssemble hsRespS hsRespS.symmetric hsRespS.rs hsRespS.re) :=
  ⟨(C6_read_consumption.1 toyDH toyCipher toyHash hsResp0 []
      (by decide) (by decide)).1 (by decide),
   (C6_read_consumption.2 toyDH toyCipher toyHash hsRespS []
      (by decide) (by decide)).1 (by decide)⟩
